import Mathlib

/-!
Verification of the NYC OATH hearings ETL script (`load_oath.py`).

The script fetches paginated CSV data from a Socrata endpoint
(`fetch_page`), concatenates the pages into a local staging file
(`build_local_csv`), and bulk-copies that file into PostgreSQL
(`main` / `copy_into_postgres`).

The embedding below models:
  * the configuration constants (`FIELDS`, `TOTAL_TARGET`, `PAGE_LIMIT`);
  * `str.splitlines` restricted to the newline character, which is the
    only line boundary produced by the CSV endpoint;
  * the column count computed by `next(csv.reader([header]))` (an empty
    line parses to zero fields; a double quote toggles quoting; a comma
    outside quotes separates fields);
  * `fetch_page` over an abstract network oracle
    `net : Nat → ReqKind → ReqOutcome` giving, for each attempt number
    and request kind (primary `Accept: text/csv` request or the
    `Accept: text/plain` fallback issued on HTTP 406), either a
    network-level failure (`requests.exceptions.RequestException`) or a
    response with a status code and body.  `raise_for_status` raises an
    `HTTPError` — a subclass of `RequestException` — for statuses in
    [400, 600).  The returned trace records the result, the sleeps
    performed between attempts, and every request issued;
  * `build_local_csv` over an abstract paginated source
    `fetch : Nat → String` mapping an offset to the body returned by
    `fetch_page` for that offset.  The loop is written with a fuel
    argument; `TOTAL_TARGET + 1` units of fuel are always enough because
    every iteration that continues the loop writes at least one data row
    and the loop requires `rows_written < TOTAL_TARGET` to keep going.
    The staging file is modelled as the list of lines written to it, and
    the function additionally returns the log of fetched pages (each as
    its list of lines) for stating trace properties;
  * `main`, which aborts with `SystemExit(1)` when zero rows were staged
    and otherwise calls `copy_into_postgres`.
-/

/-- Column selection sent to Socrata (`FIELDS` in the script); the schema
width is its length, 6. -/
def FIELDS : List String :=
  ["ticket_number", "hearing_date", "issuing_agency",
   "hearing_result", "penalty_imposed", "paid_amount"]

/-- `TOTAL_TARGET = 50_000` in the script. -/
def TOTAL_TARGET : Nat := 50000

/-- `PAGE_LIMIT = 10_000` in the script. -/
def PAGE_LIMIT : Nat := 10000

/-- Helper for `splitlines`: walk the characters with the reversed
current line as accumulator; a newline emits the current line, and a
final partial line is emitted at the end (so a trailing newline does not
produce a trailing empty line). -/
def splitlinesAux : List Char → List Char → List String
  | [], acc => if acc.isEmpty then [] else [⟨acc.reverse⟩]
  | c :: cs, acc =>
    if c = '\n' then (⟨acc.reverse⟩ : String) :: splitlinesAux cs []
    else splitlinesAux cs (c :: acc)

/-- Python `str.splitlines` restricted to the `\n` boundary: split on
newlines, without a trailing empty line when the text ends in `\n`, and
`[]` on the empty string. -/
def splitlines (s : String) : List String := splitlinesAux s.data []

/-- Number of `\n` characters in a string (Python `text.count("\n")`). -/
def countNewlines (s : String) : Nat := s.data.countP (fun c => c = '\n')

/-- Field counting for one CSV record: a double quote toggles the quoting
state and a comma outside quotes starts a new field. -/
def csvCountAux : List Char → Bool → Nat → Nat
  | [], _, n => n
  | c :: rest, inQuotes, n =>
    if c = '"' then csvCountAux rest (!inQuotes) n
    else if c = ',' && !inQuotes then csvCountAux rest inQuotes (n + 1)
    else csvCountAux rest inQuotes n

/-- Number of fields `next(csv.reader([s]))` yields for a single line:
an empty line has zero fields, otherwise one more field than the number
of separating commas outside quotes. -/
def csvFieldCount (s : String) : Nat :=
  if s = "" then 0 else csvCountAux s.data false 1

/-- Result of one run of `build_local_csv`: either the staged file (as
its list of lines) together with `rows_written`, or the `RuntimeError`
raised on a header with an unexpected column count, carrying the file
content and row count at the moment of the abort. -/
inductive BuildOutcome where
  | ok (file : List String) (rows_written : Nat)
  | err (msg : String) (file : List String) (rows_written : Nat)
deriving DecidableEq, Repr

/-- The `while rows_written < TOTAL_TARGET` loop of `build_local_csv`,
with explicit fuel.  Besides the outcome it returns the log of fetched
pages, each page recorded as the `splitlines` of the fetched chunk.
Mirrors the source: an empty chunk or an empty line list breaks the
loop; the page header is parsed and its field count checked against
`FIELDS.length` before anything is written; the header line is written
only once; data lines are appended verbatim and counted; a page of fewer
than `PAGE_LIMIT` data lines (or with no data lines at all) ends the
loop. -/
def buildGo (fetch : Nat → String) :
    Nat → Nat → Nat → Bool → List String → BuildOutcome × List (List String)
  | 0, rows_written, _, _, file => (.ok file rows_written, [])
  | fuel + 1, rows_written, offset, header_written, file =>
    if rows_written < TOTAL_TARGET then
      if fetch offset = "" then (.ok file rows_written, [[]])
      else
        match splitlines (fetch offset) with
        | [] => (.ok file rows_written, [[]])
        | header :: data_lines =>
          if csvFieldCount header ≠ FIELDS.length then
            (.err "Unexpected column count from Socrata" file rows_written,
              [header :: data_lines])
          else if data_lines = [] then
            (.ok (if header_written then file else file ++ [header]) rows_written,
              [header :: data_lines])
          else if data_lines.length < PAGE_LIMIT then
            (.ok ((if header_written then file else file ++ [header]) ++ data_lines)
                (rows_written + data_lines.length),
              [header :: data_lines])
          else
            match buildGo fetch fuel (rows_written + data_lines.length)
                (offset + PAGE_LIMIT) true
                ((if header_written then file else file ++ [header]) ++ data_lines) with
            | (res, log) => (res, (header :: data_lines) :: log)
    else (.ok file rows_written, [])

/-- `build_local_csv`: run the staging loop from the initial state
(`rows_written = 0`, `offset = 0`, header not yet written, empty file).
`TOTAL_TARGET + 1` fuel always suffices (see `buildGo_invariant`). -/
def build_local_csv (fetch : Nat → String) : BuildOutcome × List (List String) :=
  buildGo fetch (TOTAL_TARGET + 1) 0 0 false []

/-- Number of data lines of a fetched page (everything after the header
line). -/
def dataCount (p : List String) : Nat := p.tail.length

/-- Sum of the data-line counts over a log of fetched pages. -/
def sumTails (log : List (List String)) : Nat := (log.map dataCount).sum

/-- Concatenation of the data lines of a log of fetched pages, in fetch
order. -/
def dataJoin (log : List (List String)) : List String := (log.map List.tail).flatten

/-- The header contribution of a log of pages to the staging file: the
first page's header line, unless the header had already been written. -/
def hdrContrib (header_written : Bool) (log : List (List String)) : List String :=
  if header_written then [] else (log.headD []).take 1

/-- Chain condition on a log of fetched pages, starting from a given row
count: every fetch happens only while the row count is below
`TOTAL_TARGET`, and every page other than the last one carried at least
`PAGE_LIMIT` data lines. -/
def pagesChain (rows_written : Nat) : List (List String) → Prop
  | [] => True
  | p :: rest =>
    rows_written < TOTAL_TARGET ∧
      (rest = [] ∨ (PAGE_LIMIT ≤ dataCount p ∧ pagesChain (rows_written + dataCount p) rest))

/-- Every page of the log is empty or has a header with the expected
field count. -/
def headersOk : List (List String) → Prop
  | [] => True
  | p :: rest => (p = [] ∨ csvFieldCount (p.headD "") = FIELDS.length) ∧ headersOk rest

/-- Every page of the log is the line list of some fetched chunk. -/
def pagesFrom (fetch : Nat → String) (log : List (List String)) : Prop :=
  ∀ p ∈ log, ∃ off, p = splitlines (fetch off)

theorem splitlines_empty : splitlines "" = [] := rfl

/-- The two kinds of HTTP request `fetch_page` can issue: the primary
request and the content-negotiation fallback sent on HTTP 406. -/
inductive ReqKind where
  | primary
  | fallback
deriving DecidableEq, Repr

/-- The `Accept` header of each request kind: `text/csv` for the primary
request (from `HEADERS`), `text/plain` for the 406 fallback. -/
def acceptHeader : ReqKind → String
  | .primary => "text/csv"
  | .fallback => "text/plain"

/-- An HTTP response: status code and body text. -/
structure HttpResponse where
  status : Nat
  text : String
deriving DecidableEq, Repr

/-- Outcome of one `requests.get` call: a network-level
`RequestException`, or a response. -/
inductive ReqOutcome where
  | netError
  | response (r : HttpResponse)
deriving DecidableEq, Repr

/-- The exceptions `fetch_page` can raise.  Both are
`requests.exceptions.RequestException`s (`HTTPError` is a subclass), so
both are caught by the retry handler. -/
inductive PyExn where
  | requestException
  | httpError (status : Nat)
deriving DecidableEq, Repr

/-- `r.raise_for_status()`: raises `HTTPError` for a status in
`[400, 600)`, otherwise returns the response unchanged. -/
def raiseForStatus (r : HttpResponse) : Except PyExn HttpResponse :=
  if 400 ≤ r.status ∧ r.status < 600 then .error (.httpError r.status) else .ok r

/-- Lines 108–113 of the script, applied to the selected response:
`raise_for_status`, then return `""` when the body is empty or has no
newline (header only, no data), else return the body. -/
def finishResponse (r : HttpResponse) : Except PyExn String :=
  match raiseForStatus r with
  | .error e => .error e
  | .ok r => if r.text = "" ∨ countNewlines r.text < 1 then .ok "" else .ok r.text

/-- The body of one attempt of the retry loop in `fetch_page` (lines
103–113): issue the primary request; on a network error raise
`RequestException`; on HTTP 406 issue exactly one fallback request with
`Accept: text/plain` and continue with that response.  Returns the
attempt's result together with the list of requests issued, tagged with
the attempt number and kind. -/
def attemptOnce (net : Nat → ReqKind → ReqOutcome) (attempt : Nat) :
    Except PyExn String × List (Nat × ReqKind) :=
  match net attempt .primary with
  | .netError => (.error .requestException, [(attempt, .primary)])
  | .response r0 =>
    if r0.status = 406 then
      match net attempt .fallback with
      | .netError => (.error .requestException, [(attempt, .primary), (attempt, .fallback)])
      | .response r1 => (finishResponse r1, [(attempt, .primary), (attempt, .fallback)])
    else (finishResponse r0, [(attempt, .primary)])

/-- Trace of one run of `fetch_page`: the result (page text, or the
exception propagated after the last attempt), the backoff sleeps
performed between attempts, and every request issued. -/
structure FetchTrace where
  result : Except PyExn String
  sleeps : List Nat
  requests : List (Nat × ReqKind)
deriving Repr

/-- The `for attempt in range(6)` retry loop of `fetch_page`, with the
remaining iteration count as fuel (`fetch_page` starts it at 6).  On a
caught `RequestException`: re-raise if this was attempt 5 (the last
one), otherwise sleep `backoff` seconds and double the backoff. -/
def fetchGo (net : Nat → ReqKind → ReqOutcome) : Nat → Nat → Nat → FetchTrace
  | 0, _, _ => ⟨.ok "", [], []⟩
  | fuel + 1, attempt, backoff =>
    match attemptOnce net attempt with
    | (.ok s, reqs) => ⟨.ok s, [], reqs⟩
    | (.error e, reqs) =>
      if attempt = 5 then ⟨.error e, [], reqs⟩
      else
        match fetchGo net fuel (attempt + 1) (backoff * 2) with
        | rest => ⟨rest.result, backoff :: rest.sleeps, reqs ++ rest.requests⟩

/-- `fetch_page` over an abstract network oracle: six attempts starting
with a backoff of 2 seconds. -/
def fetch_page (net : Nat → ReqKind → ReqOutcome) : FetchTrace :=
  fetchGo net 6 0 2

/-- Result of `main`: `SystemExit(1)` when zero rows were staged (no
bulk-copy attempt), a completed `copy_into_postgres` call on the staged
file otherwise, or an uncaught `RuntimeError` propagated from
`build_local_csv`. -/
inductive MainResult where
  | exitOne (csv_file : List String)
  | copied (csv_file : List String) (rows_written : Nat)
  | aborted (msg : String)
deriving DecidableEq, Repr

/-- Whether `copy_into_postgres` was invoked in the run. -/
def copy_called : MainResult → Bool
  | .copied _ _ => true
  | _ => false

/-- The script's `main` (lines 174–186; renamed because `main` is
reserved): stage the data; exit with status 1 when `n_rows == 0`;
otherwise bulk-copy the staged file. -/
def mainRun (fetch : Nat → String) : MainResult :=
  match build_local_csv fetch with
  | (.err m _ _, _) => .aborted m
  | (.ok f n_rows, _) => if n_rows = 0 then .exitOne f else .copied f n_rows

theorem dataJoin_nil : dataJoin [] = [] := rfl

theorem dataJoin_cons (p : List String) (l : List (List String)) :
    dataJoin (p :: l) = p.tail ++ dataJoin l := rfl

theorem sumTails_nil : sumTails [] = 0 := rfl

theorem sumTails_cons (p : List String) (l : List (List String)) :
    sumTails (p :: l) = dataCount p + sumTails l := rfl

theorem hdrContrib_true (l : List (List String)) : hdrContrib true l = [] := rfl

theorem hdrContrib_nil (hw : Bool) : hdrContrib hw [] = [] := by
  cases hw <;> rfl

theorem hdrContrib_nilpage (hw : Bool) (l : List (List String)) :
    hdrContrib hw ([] :: l) = [] := by
  cases hw <;> rfl

theorem hdrContrib_cons (hw : Bool) (a : String) (t : List String) (l : List (List String)) :
    hdrContrib hw ((a :: t) :: l) = if hw then [] else [a] := by
  cases hw <;> rfl

/-- Postcondition of the staging loop relative to its entry state: an
`ok` result returns the entry file extended by the (at most one) header
contribution and the concatenated data lines of the fetched pages, with
the row count advanced by their total, and every processed page had a
well-formed header; an `err` result identifies the offending page as the
last fetched one, with a header of unexpected field count, and leaves
the file and row count exactly as the previous pages built them. -/
def buildPost (rows_written : Nat) (header_written : Bool) (file : List String) :
    BuildOutcome → List (List String) → Prop
  | .ok f r, log =>
    f = file ++ hdrContrib header_written log ++ dataJoin log
    ∧ r = rows_written + sumTails log ∧ headersOk log
  | .err _ f r, log =>
    ∃ pre hdr rest,
      log = pre ++ [hdr :: rest]
      ∧ csvFieldCount hdr ≠ FIELDS.length
      ∧ f = file ++ hdrContrib header_written pre ++ dataJoin pre
      ∧ r = rows_written + sumTails pre

/-- Main invariant of the staging loop: with enough fuel (which
`build_local_csv` always supplies), every run satisfies the page-chain
condition, fetches every logged page from the source, and meets
`buildPost`. -/
theorem buildGo_invariant (fetch : Nat → String) (fuel : Nat) :
    ∀ rows_written offset header_written file,
      TOTAL_TARGET < rows_written + fuel →
      ∀ res log,
        buildGo fetch fuel rows_written offset header_written file = (res, log) →
        pagesChain rows_written log ∧ pagesFrom fetch log
          ∧ buildPost rows_written header_written file res log := by
  induction fuel with
  | zero =>
    intro rows offset hw file hfuel res log h
    simp only [buildGo] at h
    injection h with h1 h2
    subst h1; subst h2
    refine ⟨trivial, ?_, ?_⟩
    · intro p hp; simp at hp
    · exact ⟨by simp [hdrContrib_nil, dataJoin_nil], by simp [sumTails_nil], trivial⟩
  | succ fuel ih =>
    intro rows offset hw file hfuel res log h
    simp only [buildGo] at h
    split at h
    · -- rows_written < TOTAL_TARGET: the loop body runs
      rename_i hguard
      split at h
      · -- empty chunk: break
        rename_i hchunk
        injection h with h1 h2
        subst h1; subst h2
        refine ⟨⟨hguard, Or.inl rfl⟩, ?_, ?_⟩
        · intro p hp
          rw [List.mem_singleton] at hp; subst hp
          exact ⟨offset, by rw [hchunk, splitlines_empty]⟩
        · exact ⟨by simp [hdrContrib_nilpage, dataJoin_cons, dataJoin_nil],
            by simp [sumTails_cons, sumTails_nil, dataCount], ⟨Or.inl rfl, trivial⟩⟩
      · rename_i hchunk
        split at h
        · -- splitlines gave no lines: break
          rename_i hsp
          injection h with h1 h2
          subst h1; subst h2
          refine ⟨⟨hguard, Or.inl rfl⟩, ?_, ?_⟩
          · intro p hp
            rw [List.mem_singleton] at hp; subst hp
            exact ⟨offset, hsp.symm⟩
          · exact ⟨by simp [hdrContrib_nilpage, dataJoin_cons, dataJoin_nil],
              by simp [sumTails_cons, sumTails_nil, dataCount], ⟨Or.inl rfl, trivial⟩⟩
        · rename_i header data_lines hsp
          split at h
          · -- header with unexpected column count: RuntimeError
            rename_i hhdr
            injection h with h1 h2
            subst h1; subst h2
            refine ⟨⟨hguard, Or.inl rfl⟩, ?_, ?_⟩
            · intro p hp
              rw [List.mem_singleton] at hp; subst hp
              exact ⟨offset, hsp.symm⟩
            · exact ⟨[], header, data_lines, rfl, hhdr,
                by simp [hdrContrib_nil, dataJoin_nil], by simp [sumTails_nil]⟩
          · rename_i hhdr
            split at h
            · -- page with no data lines: break after possibly writing the header
              rename_i hdl
              subst hdl
              injection h with h1 h2
              subst h1; subst h2
              refine ⟨⟨hguard, Or.inl rfl⟩, ?_, ?_⟩
              · intro p hp
                rw [List.mem_singleton] at hp; subst hp
                exact ⟨offset, hsp.symm⟩
              · refine ⟨?_, by simp [sumTails_cons, sumTails_nil, dataCount], ?_⟩
                · cases hw <;>
                    simp [hdrContrib_cons, dataJoin_cons, dataJoin_nil]
                · exact ⟨Or.inr (not_not.mp hhdr), trivial⟩
            · rename_i hdl
              split at h
              · -- short page: write it and break
                rename_i hlen
                injection h with h1 h2
                subst h1; subst h2
                refine ⟨⟨hguard, Or.inl rfl⟩, ?_, ?_⟩
                · intro p hp
                  rw [List.mem_singleton] at hp; subst hp
                  exact ⟨offset, hsp.symm⟩
                · refine ⟨?_, by simp [sumTails_cons, sumTails_nil, dataCount], ?_⟩
                  · cases hw <;>
                      simp [hdrContrib_cons, dataJoin_cons, dataJoin_nil]
                  · exact ⟨Or.inr (not_not.mp hhdr), trivial⟩
              · -- full page: write it and continue
                rename_i hlen
                cases hrec : buildGo fetch fuel (rows + data_lines.length) (offset + PAGE_LIMIT)
                    true ((if hw then file else file ++ [header]) ++ data_lines) with
                | mk res' log' =>
                rw [hrec] at h
                injection h with h1 h2
                subst h1; subst h2
                have hone : 1 ≤ data_lines.length :=
                  Nat.one_le_iff_ne_zero.mpr (by simpa using hdl)
                have hfuel' : TOTAL_TARGET < rows + data_lines.length + fuel := by omega
                obtain ⟨hchain', hfrom', hpost'⟩ :=
                  ih (rows + data_lines.length) (offset + PAGE_LIMIT) true
                    ((if hw then file else file ++ [header]) ++ data_lines) hfuel' res' log' hrec
                refine ⟨⟨hguard, Or.inr ⟨Nat.le_of_not_lt hlen, hchain'⟩⟩, ?_, ?_⟩
                · intro p hp
                  rcases List.mem_cons.mp hp with rfl | hp'
                  · exact ⟨offset, hsp.symm⟩
                  · exact hfrom' p hp'
                · cases res' with
                  | ok f' r' =>
                    obtain ⟨hf, hr, hOk⟩ := hpost'
                    refine ⟨?_, ?_, Or.inr (not_not.mp hhdr), hOk⟩
                    · rw [hf, hdrContrib_true]
                      cases hw <;>
                        simp [hdrContrib_cons, dataJoin_cons]
                    · rw [hr]
                      simp [sumTails_cons, dataCount]
                      omega
                  | err m f' r' =>
                    obtain ⟨pre, hdr, rest, hlog, hcnt, hf, hr⟩ := hpost'
                    refine ⟨(header :: data_lines) :: pre, hdr, rest, by rw [hlog]; rfl,
                      hcnt, ?_, ?_⟩
                    · rw [hf, hdrContrib_true]
                      cases hw <;>
                        simp [hdrContrib_cons, dataJoin_cons]
                    · rw [hr]
                      simp [sumTails_cons, dataCount]
                      omega
    · -- rows_written ≥ TOTAL_TARGET: the loop does not run
      injection h with h1 h2
      subst h1; subst h2
      refine ⟨trivial, ?_, ?_⟩
      · intro p hp; simp at hp
      · exact ⟨by simp [hdrContrib_nil, dataJoin_nil], by simp [sumTails_nil], trivial⟩

/-- The invariant specialised to `build_local_csv`, whose fuel is always
sufficient. -/
theorem build_local_csv_invariant (fetch : Nat → String) (res : BuildOutcome)
    (log : List (List String)) (h : build_local_csv fetch = (res, log)) :
    pagesChain 0 log ∧ pagesFrom fetch log ∧ buildPost 0 false [] res log :=
  buildGo_invariant fetch (TOTAL_TARGET + 1) 0 0 false [] (by omega) res log h

theorem pagesChain_cons_iff (r : Nat) (p : List String) (rest : List (List String)) :
    pagesChain r (p :: rest) ↔
      r < TOTAL_TARGET ∧
        (rest = [] ∨ (PAGE_LIMIT ≤ dataCount p ∧ pagesChain (r + dataCount p) rest)) :=
  Iff.rfl

/-- In a page chain, a page with fewer than `PAGE_LIMIT` data lines is
followed by no further page. -/
theorem pagesChain_short_last (l₁ : List (List String)) :
    ∀ (r : Nat) (p : List String) (l₂ : List (List String)),
      pagesChain r (l₁ ++ p :: l₂) → dataCount p < PAGE_LIMIT → l₂ = [] := by
  induction l₁ with
  | nil =>
    intro r p l₂ hc hlt
    rw [List.nil_append, pagesChain_cons_iff] at hc
    rcases hc.2 with h | ⟨hge, -⟩
    · exact h
    · omega
  | cons q l₁ ih =>
    intro r p l₂ hc hlt
    rw [List.cons_append, pagesChain_cons_iff] at hc
    rcases hc.2 with h | ⟨-, hc'⟩
    · exact absurd h (by simp)
    · exact ih _ p l₂ hc' hlt

/-- In a page chain, every fetch happens while the running row count is
still below `TOTAL_TARGET`. -/
theorem pagesChain_take (log : List (List String)) :
    ∀ r i : Nat, pagesChain r log → i < log.length →
      r + sumTails (log.take i) < TOTAL_TARGET := by
  induction log with
  | nil => intro r i _ hi; simp at hi
  | cons p rest ih =>
    intro r i hc hi
    rw [pagesChain_cons_iff] at hc
    cases i with
    | zero => simpa [sumTails_nil] using hc.1
    | succ i =>
      rcases hc.2 with rfl | ⟨-, hc'⟩
      · simp at hi
      · have := ih (r + dataCount p) i hc' (by simpa using hi)
        rw [List.take_succ_cons, sumTails_cons]
        omega

/-- If every page of a chain carries at most `PAGE_LIMIT` data lines,
the final row count stays below `TOTAL_TARGET + PAGE_LIMIT`. -/
theorem pagesChain_bound (log : List (List String)) :
    ∀ r : Nat, pagesChain r log → (∀ p ∈ log, dataCount p ≤ PAGE_LIMIT) →
      r + sumTails log < TOTAL_TARGET + PAGE_LIMIT ∨ log = [] := by
  induction log with
  | nil => intro r _ _; exact Or.inr rfl
  | cons p rest ih =>
    intro r hc hb
    rw [pagesChain_cons_iff] at hc
    left
    have hp := hb p (List.mem_cons_self _ _)
    rw [sumTails_cons]
    rcases hc.2 with rfl | ⟨-, hc'⟩
    · rw [sumTails_nil]
      have := hc.1
      omega
    · rcases ih (r + dataCount p) hc' (fun q hq => hb q (List.mem_cons_of_mem _ hq)) with h' | rfl
      · omega
      · rw [sumTails_nil]
        have := hc.1
        omega

theorem dataJoin_length (log : List (List String)) :
    (dataJoin log).length = sumTails log := by
  induction log with
  | nil => rfl
  | cons p l ih => rw [dataJoin_cons, sumTails_cons, List.length_append, ih, dataCount]

/-- C1: for every run of the staging step over a simulated paginated
source, the `rows_written` value returned by `build_local_csv` equals
the sum of the data-line counts of all pages fetched: each iteration
adds exactly `len(data_lines)` and nothing else writes data lines. -/
theorem C1_rows_eq_sum_of_pages (fetch : Nat → String) (f : List String) (r : Nat)
    (log : List (List String)) (h : build_local_csv fetch = (.ok f r, log)) :
    r = sumTails log := by
  obtain ⟨-, -, hpost⟩ := build_local_csv_invariant fetch _ _ h
  simp only [buildPost] at hpost
  omega

/-- Witness for C1: a source with one page of two data rows stages
exactly two rows. -/
theorem C1_witness :
    (2 : Nat) = sumTails [["h1,h2,h3,h4,h5,h6", "a", "b"]] :=
  C1_rows_eq_sum_of_pages (fun off => if off = 0 then "h1,h2,h3,h4,h5,h6\na\nb\n" else "")
    ["h1,h2,h3,h4,h5,h6", "a", "b"] 2 [["h1,h2,h3,h4,h5,h6", "a", "b"]] rfl

/-- C2: a fetched page with fewer than `PAGE_LIMIT` data lines is the
last page fetched, and every fetch happens only while `rows_written` is
still below `TOTAL_TARGET`. -/
theorem C2_short_page_is_last (fetch : Nat → String) (res : BuildOutcome)
    (log : List (List String)) (h : build_local_csv fetch = (res, log)) :
    (∀ l₁ p l₂, log = l₁ ++ p :: l₂ → dataCount p < PAGE_LIMIT → l₂ = [])
    ∧ (∀ i, i < log.length → sumTails (log.take i) < TOTAL_TARGET) := by
  obtain ⟨hchain, -, -⟩ := build_local_csv_invariant fetch res log h
  constructor
  · intro l₁ p l₂ hl hlt
    exact pagesChain_short_last l₁ 0 p l₂ (hl ▸ hchain) hlt
  · intro i hi
    simpa using pagesChain_take log 0 i hchain hi

/-- Witness for C2: a single short page is the last (and only) page. -/
theorem C2_witness :
    (∀ l₁ p l₂, [["a1,a2,a3,a4,a5,a6", "z"]] = l₁ ++ p :: l₂ →
        dataCount p < PAGE_LIMIT → l₂ = [])
    ∧ (∀ i, i < ([["a1,a2,a3,a4,a5,a6", "z"]] : List (List String)).length →
        sumTails ([["a1,a2,a3,a4,a5,a6", "z"]].take i) < TOTAL_TARGET) :=
  C2_short_page_is_last (fun off => if off = 0 then "a1,a2,a3,a4,a5,a6\nz\n" else "")
    (.ok ["a1,a2,a3,a4,a5,a6", "z"] 1) [["a1,a2,a3,a4,a5,a6", "z"]] rfl

/-- C3: a run that stages zero rows exits with `SystemExit(1)` and never
reaches `copy_into_postgres`; conversely `copy_into_postgres` is invoked
only when at least one row was staged. -/
theorem C3_zero_rows_exit (fetch : Nat → String) :
    (∀ f log, build_local_csv fetch = (.ok f 0, log) →
        mainRun fetch = .exitOne f ∧ copy_called (mainRun fetch) = false)
    ∧ (copy_called (mainRun fetch) = true →
        ∃ f n log, build_local_csv fetch = (.ok f n, log) ∧ 1 ≤ n
          ∧ mainRun fetch = .copied f n) := by
  constructor
  · intro f log h
    constructor <;> simp [mainRun, h, copy_called]
  · intro hcopy
    cases hb : build_local_csv fetch with
    | mk res log =>
    cases res with
    | err m f r => simp [mainRun, hb, copy_called] at hcopy
    | ok f r =>
      by_cases hr : r = 0
      · subst hr; simp [mainRun, hb, copy_called] at hcopy
      · exact ⟨f, r, log, rfl, Nat.one_le_iff_ne_zero.mpr hr, by simp [mainRun, hb, hr]⟩

/-- Witness for C3: a source with no data yields `SystemExit(1)` and no
bulk copy. -/
theorem C3_witness :
    mainRun (fun _ => "") = .exitOne [] ∧ copy_called (mainRun (fun _ => "")) = false :=
  (C3_zero_rows_exit (fun _ => "")).1 [] [[]] rfl

/-- C4: the header of each page is parsed and its field count compared
to the schema width before anything of that page is written: an `ok` run
has a staged file that is empty or starts with a header of exactly
`FIELDS.length` columns, and an aborted run identifies a bad header on
the last fetched page, with the file containing nothing from that
page. -/
theorem C4_header_check_before_write (fetch : Nat → String) :
    (∀ f r log, build_local_csv fetch = (.ok f r, log) →
        f = [] ∨ csvFieldCount (f.headD "") = FIELDS.length)
    ∧ (∀ m f r log, build_local_csv fetch = (.err m f r, log) →
        ∃ pre hdr rest, log = pre ++ [hdr :: rest]
          ∧ csvFieldCount hdr ≠ FIELDS.length
          ∧ f = hdrContrib false pre ++ dataJoin pre) := by
  constructor
  · intro f r log h
    obtain ⟨hchain, -, hpost⟩ := build_local_csv_invariant fetch _ _ h
    simp only [buildPost] at hpost
    obtain ⟨hf, -, hhdrs⟩ := hpost
    cases log with
    | nil => left; simpa [hdrContrib_nil, dataJoin_nil] using hf
    | cons p rest =>
      cases p with
      | nil =>
        rw [pagesChain_cons_iff] at hchain
        rcases hchain.2 with rfl | ⟨hge, -⟩
        · left; simpa [hdrContrib_nilpage, dataJoin_cons, dataJoin_nil] using hf
        · simp [dataCount, PAGE_LIMIT] at hge
      | cons a t =>
        right
        rw [hf, hdrContrib_cons]
        simp only [headersOk] at hhdrs
        rcases hhdrs.1 with h' | h'
        · exact absurd h' (by simp)
        · simpa [dataJoin_cons] using h'
  · intro m f r log h
    obtain ⟨-, -, hpost⟩ := build_local_csv_invariant fetch _ _ h
    simp only [buildPost] at hpost
    obtain ⟨pre, hdr, rest, hlog, hcnt, hf, -⟩ := hpost
    exact ⟨pre, hdr, rest, hlog, hcnt, by simpa using hf⟩

/-- Witness for C4: a page whose header has two columns aborts the run
with nothing written. -/
theorem C4_witness :
    ∃ pre hdr rest,
      ([["a,b", "x"]] : List (List String)) = pre ++ [hdr :: rest]
      ∧ csvFieldCount hdr ≠ FIELDS.length
      ∧ ([] : List String) = hdrContrib false pre ++ dataJoin pre :=
  (C4_header_check_before_write (fun _ => "a,b\nx\n")).2
    "Unexpected column count from Socrata" [] 0 [["a,b", "x"]] rfl

/-- C8: a run that stages at least one row produces a file with exactly
one header line, written before any data line; all remaining lines are
the data lines of the fetched pages. -/
theorem C8_single_header (fetch : Nat → String) (f : List String) (r : Nat)
    (log : List (List String)) (h : build_local_csv fetch = (.ok f r, log)) (hr : 1 ≤ r) :
    ∃ hdr, f = hdr :: dataJoin log ∧ (dataJoin log).length = r := by
  obtain ⟨hchain, -, hpost⟩ := build_local_csv_invariant fetch _ _ h
  simp only [buildPost] at hpost
  obtain ⟨hf, hrsum, -⟩ := hpost
  cases log with
  | nil => rw [sumTails_nil] at hrsum; omega
  | cons p rest =>
    cases p with
    | nil =>
      rw [pagesChain_cons_iff] at hchain
      rcases hchain.2 with rfl | ⟨hge, -⟩
      · rw [sumTails_cons, sumTails_nil] at hrsum
        simp [dataCount] at hrsum
        omega
      · simp [dataCount, PAGE_LIMIT] at hge
    | cons a t =>
      refine ⟨a, ?_, ?_⟩
      · rw [hf, hdrContrib_cons]
        simp
      · rw [dataJoin_length]
        omega

/-- Witness for C8: one page with one data row gives a file of the
header followed by that row. -/
theorem C8_witness :
    ∃ hdr, ["c1,c2,c3,c4,c5,c6", "r1"] = hdr :: dataJoin [["c1,c2,c3,c4,c5,c6", "r1"]]
      ∧ (dataJoin [["c1,c2,c3,c4,c5,c6", "r1"]]).length = 1 :=
  C8_single_header (fun off => if off = 0 then "c1,c2,c3,c4,c5,c6\nr1\n" else "")
    ["c1,c2,c3,c4,c5,c6", "r1"] 1 [["c1,c2,c3,c4,c5,c6", "r1"]] rfl (by decide)

/-- C9: the target-count condition is checked before fetching, never
after writing, so when every page respects the page size the returned
row count is at most `TOTAL_TARGET + PAGE_LIMIT - 1` — a final full page
that crosses the target is staged in its entirety. -/
theorem C9_rows_bound (fetch : Nat → String)
    (hp : ∀ off, dataCount (splitlines (fetch off)) ≤ PAGE_LIMIT)
    (f : List String) (r : Nat) (log : List (List String))
    (h : build_local_csv fetch = (.ok f r, log)) :
    r ≤ TOTAL_TARGET + PAGE_LIMIT - 1 := by
  obtain ⟨hchain, hfrom, hpost⟩ := build_local_csv_invariant fetch _ _ h
  simp only [buildPost] at hpost
  obtain ⟨-, hrsum, -⟩ := hpost
  have hb : ∀ p ∈ log, dataCount p ≤ PAGE_LIMIT := by
    intro p hpmem
    obtain ⟨off, rfl⟩ := hfrom p hpmem
    exact hp off
  rcases pagesChain_bound log 0 hchain hb with h' | rfl
  · omega
  · rw [sumTails_nil] at hrsum
    omega

/-- Witness for C9: the empty source satisfies the page-size bound and
stages zero rows. -/
theorem C9_witness : (0 : Nat) ≤ TOTAL_TARGET + PAGE_LIMIT - 1 :=
  C9_rows_bound (fun _ => "") (fun _ => Nat.zero_le _) [] 0 [[]] rfl

/-- C10: the column-count validation inspects only each page's header
line: when every fetched page is empty or has a header of exactly
`FIELDS.length` columns, the run never aborts and all data lines are
written to the staging file unchanged and uninspected, whatever their
own field counts. -/
theorem C10_data_lines_uninspected (fetch : Nat → String)
    (hgood : ∀ off, splitlines (fetch off) = [] ∨
        csvFieldCount ((splitlines (fetch off)).headD "") = FIELDS.length) :
    ∀ res log, build_local_csv fetch = (res, log) →
      ∃ f r, res = .ok f r ∧ f = hdrContrib false log ++ dataJoin log := by
  intro res log h
  obtain ⟨-, hfrom, hpost⟩ := build_local_csv_invariant fetch res log h
  cases res with
  | ok f r =>
    simp only [buildPost] at hpost
    exact ⟨f, r, rfl, by simpa using hpost.1⟩
  | err m f r =>
    simp only [buildPost] at hpost
    obtain ⟨pre, hdr, rest, hlog, hcnt, -, -⟩ := hpost
    exfalso
    have hmem : (hdr :: rest) ∈ log := by
      rw [hlog]
      exact List.mem_append_right _ (List.mem_singleton.mpr rfl)
    obtain ⟨off, hoff⟩ := hfrom _ hmem
    rcases hgood off with hnil | hcount
    · rw [← hoff] at hnil
      exact List.cons_ne_nil _ _ hnil
    · rw [← hoff] at hcount
      exact hcnt (by simpa using hcount)

/-- Witness for C10: a page with a well-formed header and a malformed
two-field data line is staged verbatim without aborting. -/
theorem C10_witness :
    ∃ f r, (BuildOutcome.ok ["a,b,c,d,e,f", "bad,line"] 1 : BuildOutcome) = .ok f r
      ∧ f = hdrContrib false [["a,b,c,d,e,f", "bad,line"]]
          ++ dataJoin [["a,b,c,d,e,f", "bad,line"]] :=
  C10_data_lines_uninspected (fun off => if off = 0 then "a,b,c,d,e,f\nbad,line\n" else "")
    (fun off => by
      cases off with
      | zero => exact Or.inr rfl
      | succ n => exact Or.inl rfl)
    (.ok ["a,b,c,d,e,f", "bad,line"] 1) [["a,b,c,d,e,f", "bad,line"]] rfl

/-- Every request issued within one attempt is tagged with that
attempt's number. -/
theorem attemptOnce_requests_attempt (net : Nat → ReqKind → ReqOutcome) (a : Nat)
    (p : Nat) (k : ReqKind) (hmem : (p, k) ∈ (attemptOnce net a).2) : p = a := by
  unfold attemptOnce at hmem
  split at hmem
  · simp at hmem
    exact hmem.1
  · split at hmem
    · split at hmem
      · simp at hmem
        rcases hmem with ⟨rfl, -⟩ | ⟨rfl, -⟩ <;> rfl
      · simp at hmem
        rcases hmem with ⟨rfl, -⟩ | ⟨rfl, -⟩ <;> rfl
    · simp at hmem
      exact hmem.1

theorem fetchGo_ok_step (net : Nat → ReqKind → ReqOutcome) (fuel attempt backoff : Nat)
    (s : String) (reqs : List (Nat × ReqKind))
    (h : attemptOnce net attempt = (.ok s, reqs)) :
    fetchGo net (fuel + 1) attempt backoff = ⟨.ok s, [], reqs⟩ := by
  simp [fetchGo, h]

theorem fetchGo_error_step (net : Nat → ReqKind → ReqOutcome) (fuel attempt backoff : Nat)
    (e : PyExn) (reqs : List (Nat × ReqKind))
    (h : attemptOnce net attempt = (.error e, reqs)) (h5 : attempt ≠ 5) :
    fetchGo net (fuel + 1) attempt backoff =
      ⟨(fetchGo net fuel (attempt + 1) (backoff * 2)).result,
        backoff :: (fetchGo net fuel (attempt + 1) (backoff * 2)).sleeps,
        reqs ++ (fetchGo net fuel (attempt + 1) (backoff * 2)).requests⟩ := by
  simp [fetchGo, h, h5]

theorem fetchGo_last_step (net : Nat → ReqKind → ReqOutcome) (fuel backoff : Nat)
    (e : PyExn) (reqs : List (Nat × ReqKind))
    (h : attemptOnce net 5 = (.error e, reqs)) :
    fetchGo net (fuel + 1) 5 backoff = ⟨.error e, [], reqs⟩ := by
  simp [fetchGo, h]

/-- Every request issued by the retry loop belongs to an attempt in
`[attempt, attempt + fuel)`. -/
theorem fetchGo_requests_bound (net : Nat → ReqKind → ReqOutcome) (fuel : Nat) :
    ∀ attempt backoff p k, (p, k) ∈ (fetchGo net fuel attempt backoff).requests →
      attempt ≤ p ∧ p < attempt + fuel := by
  induction fuel with
  | zero => intro a b p k hmem; simp [fetchGo] at hmem
  | succ fuel ih =>
    intro a b p k hmem
    cases hA : attemptOnce net a with
    | mk resA reqsA =>
    cases resA with
    | ok s =>
      rw [fetchGo_ok_step net fuel a b s reqsA hA] at hmem
      have := attemptOnce_requests_attempt net a p k (by rw [hA]; exact hmem)
      omega
    | error e =>
      by_cases h5 : a = 5
      · subst h5
        rw [fetchGo_last_step net fuel b e reqsA hA] at hmem
        have := attemptOnce_requests_attempt net 5 p k (by rw [hA]; exact hmem)
        omega
      · rw [fetchGo_error_step net fuel a b e reqsA hA h5] at hmem
        rcases List.mem_append.mp hmem with hm | hm
        · have := attemptOnce_requests_attempt net a p k (by rw [hA]; exact hm)
          omega
        · have := ih (a + 1) (b * 2) p k hm
          omega

/-- When all six attempts fail, `fetch_page` sleeps 2, 4, 8, 16 and 32
seconds between them and re-raises the last attempt's exception. -/
theorem fetch_page_all_attempts_fail (net : Nat → ReqKind → ReqOutcome)
    (hfail : ∀ a, a < 6 → ∃ e, (attemptOnce net a).1 = Except.error e) :
    ∃ e, (attemptOnce net 5).1 = Except.error e
      ∧ (fetch_page net).result = Except.error e
      ∧ (fetch_page net).sleeps = [2, 4, 8, 16, 32] := by
  obtain ⟨e0, h0⟩ := hfail 0 (by omega)
  obtain ⟨e1, h1⟩ := hfail 1 (by omega)
  obtain ⟨e2, h2⟩ := hfail 2 (by omega)
  obtain ⟨e3, h3⟩ := hfail 3 (by omega)
  obtain ⟨e4, h4⟩ := hfail 4 (by omega)
  obtain ⟨e5, h5⟩ := hfail 5 (by omega)
  have p0 : attemptOnce net 0 = (Except.error e0, (attemptOnce net 0).2) := by rw [← h0]
  have p1 : attemptOnce net 1 = (Except.error e1, (attemptOnce net 1).2) := by rw [← h1]
  have p2 : attemptOnce net 2 = (Except.error e2, (attemptOnce net 2).2) := by rw [← h2]
  have p3 : attemptOnce net 3 = (Except.error e3, (attemptOnce net 3).2) := by rw [← h3]
  have p4 : attemptOnce net 4 = (Except.error e4, (attemptOnce net 4).2) := by rw [← h4]
  have p5 : attemptOnce net 5 = (Except.error e5, (attemptOnce net 5).2) := by rw [← h5]
  have hrun : fetch_page net =
      ⟨Except.error e5, [2, 4, 8, 16, 32],
        (attemptOnce net 0).2 ++ ((attemptOnce net 1).2 ++ ((attemptOnce net 2).2 ++
          ((attemptOnce net 3).2 ++ ((attemptOnce net 4).2 ++ (attemptOnce net 5).2))))⟩ := by
    rw [fetch_page,
      fetchGo_error_step net 5 0 2 e0 _ p0 (by omega),
      fetchGo_error_step net 4 1 4 e1 _ p1 (by omega),
      fetchGo_error_step net 3 2 8 e2 _ p2 (by omega),
      fetchGo_error_step net 2 3 16 e3 _ p3 (by omega),
      fetchGo_error_step net 1 4 32 e4 _ p4 (by omega),
      fetchGo_last_step net 0 64 e5 _ p5]
  exact ⟨e5, h5, by rw [hrun], by rw [hrun]⟩

/-- C5: `fetch_page` retries a failed request with exponential backoff,
sleeping 2, 4, 8, 16 and 32 seconds between attempts, issues requests on
at most 6 attempts, and on the final attempt's failure re-raises the
exception instead of sleeping again. -/
theorem C5_backoff_and_attempt_cap (net : Nat → ReqKind → ReqOutcome)
    (hfail : ∀ a, a < 6 → ∃ e, (attemptOnce net a).1 = Except.error e) :
    (fetch_page net).sleeps = [2, 4, 8, 16, 32]
    ∧ (∃ e, (attemptOnce net 5).1 = Except.error e
        ∧ (fetch_page net).result = Except.error e)
    ∧ (∀ p k, (p, k) ∈ (fetch_page net).requests → p < 6) := by
  obtain ⟨e, h5, hres, hsleeps⟩ := fetch_page_all_attempts_fail net hfail
  refine ⟨hsleeps, ⟨e, h5, hres⟩, ?_⟩
  intro p k hmem
  have := fetchGo_requests_bound net 6 0 2 p k hmem
  omega

/-- Witness for C5: a network that always fails produces the full
backoff schedule and propagates the exception. -/
theorem C5_witness :
    (fetch_page (fun _ _ => ReqOutcome.netError)).sleeps = [2, 4, 8, 16, 32]
    ∧ (∃ e, (attemptOnce (fun _ _ => ReqOutcome.netError) 5).1 = Except.error e
        ∧ (fetch_page (fun _ _ => ReqOutcome.netError)).result = Except.error e)
    ∧ (∀ p k, (p, k) ∈ (fetch_page (fun _ _ => ReqOutcome.netError)).requests → p < 6) :=
  C5_backoff_and_attempt_cap (fun _ _ => ReqOutcome.netError)
    (fun _ _ => ⟨PyExn.requestException, rfl⟩)

/-- C6 counterexample: an HTTP 500 response does not terminate the run
immediately — `raise_for_status` raises `HTTPError`, a subclass of
`RequestException`, so the handler retries it: the run issues six
requests and sleeps the full backoff schedule before propagating the
error. -/
theorem C6_counterexample_http_error_is_retried :
    (fetch_page (fun _ _ => ReqOutcome.response ⟨500, ""⟩)).sleeps = [2, 4, 8, 16, 32]
    ∧ (fetch_page (fun _ _ => ReqOutcome.response ⟨500, ""⟩)).requests =
        [(0, ReqKind.primary), (1, ReqKind.primary), (2, ReqKind.primary),
          (3, ReqKind.primary), (4, ReqKind.primary), (5, ReqKind.primary)]
    ∧ (fetch_page (fun _ _ => ReqOutcome.response ⟨500, ""⟩)).result =
        Except.error (PyExn.httpError 500) :=
  ⟨rfl, rfl, rfl⟩

/-- C6 amended: a non-406 HTTP error response raises `HTTPError`, which
the `RequestException` handler catches, so it is retried with the same
exponential backoff; only after the six-attempt cap is exhausted does it
propagate and terminate the run. -/
theorem C6_amended_http_error_retried_then_fatal (net : Nat → ReqKind → ReqOutcome)
    (hresp : ∀ a, a < 6 → ∃ r, net a ReqKind.primary = .response r
        ∧ r.status ≠ 406 ∧ 400 ≤ r.status ∧ r.status < 600) :
    (fetch_page net).sleeps = [2, 4, 8, 16, 32]
    ∧ ∃ r, net 5 ReqKind.primary = .response r
        ∧ (fetch_page net).result = Except.error (PyExn.httpError r.status) := by
  have hfail : ∀ a, a < 6 → ∃ e, (attemptOnce net a).1 = Except.error e := by
    intro a ha
    obtain ⟨r, hr, h406, hge, hlt⟩ := hresp a ha
    exact ⟨.httpError r.status,
      by simp [attemptOnce, hr, h406, finishResponse, raiseForStatus, hge, hlt]⟩
  obtain ⟨e, h5, hres, hsleeps⟩ := fetch_page_all_attempts_fail net hfail
  refine ⟨hsleeps, ?_⟩
  obtain ⟨r, hr, h406, hge, hlt⟩ := hresp 5 (by omega)
  have hcomp : (attemptOnce net 5).1 = Except.error (PyExn.httpError r.status) := by
    simp [attemptOnce, hr, h406, finishResponse, raiseForStatus, hge, hlt]
  rw [h5] at hcomp
  injection hcomp with he
  exact ⟨r, hr, by rw [hres, he]⟩

/-- Witness for C6's amended claim: a network that always answers
HTTP 503 is retried through the whole schedule, then fatal. -/
theorem C6_amended_witness :
    (fetch_page (fun _ _ => ReqOutcome.response ⟨503, ""⟩)).sleeps = [2, 4, 8, 16, 32]
    ∧ ∃ r, (fun _ _ => ReqOutcome.response ⟨503, ""⟩) 5 ReqKind.primary = .response r
        ∧ (fetch_page (fun _ _ => ReqOutcome.response ⟨503, ""⟩)).result =
            Except.error (PyExn.httpError r.status) :=
  C6_amended_http_error_retried_then_fatal (fun _ _ => ReqOutcome.response ⟨503, ""⟩)
    (fun _ _ => ⟨⟨503, ""⟩, rfl, by decide, by decide, by decide⟩)

/-- C7: on an HTTP 406 response to the primary request, the attempt
issues exactly one fallback request — whose `Accept` header is
`text/plain` — and the fallback response's text becomes the page result
when it is not an error and carries data. -/
theorem C7_fallback_on_406 (net : Nat → ReqKind → ReqOutcome) (a : Nat) (r0 : HttpResponse)
    (h0 : net a ReqKind.primary = .response r0) (h406 : r0.status = 406) :
    (attemptOnce net a).2 = [(a, ReqKind.primary), (a, ReqKind.fallback)]
    ∧ acceptHeader ReqKind.fallback = "text/plain"
    ∧ (∀ r1, net a ReqKind.fallback = .response r1 →
        ¬(400 ≤ r1.status ∧ r1.status < 600) →
        ¬(r1.text = "" ∨ countNewlines r1.text < 1) →
        (attemptOnce net a).1 = Except.ok r1.text) := by
  refine ⟨?_, rfl, ?_⟩
  · cases h1 : net a ReqKind.fallback <;> simp [attemptOnce, h0, h406, h1]
  · intro r1 h1 hst htext
    rw [Nat.lt_one_iff] at htext
    simp [attemptOnce, h0, h406, h1, finishResponse, raiseForStatus, hst, htext]

/-- Witness for C7: a primary 406 followed by a 200 fallback with data
yields the fallback's text and exactly the two requests. -/
theorem C7_witness :
    (attemptOnce (fun _ k => match k with
        | ReqKind.primary => ReqOutcome.response ⟨406, ""⟩
        | ReqKind.fallback => ReqOutcome.response ⟨200, "h\nd\n"⟩) 0).2 =
      [(0, ReqKind.primary), (0, ReqKind.fallback)]
    ∧ acceptHeader ReqKind.fallback = "text/plain"
    ∧ (∀ r1, (fun _ k => match k with
        | ReqKind.primary => ReqOutcome.response ⟨406, ""⟩
        | ReqKind.fallback => ReqOutcome.response ⟨200, "h\nd\n"⟩) 0 ReqKind.fallback
          = ReqOutcome.response r1 →
        ¬(400 ≤ r1.status ∧ r1.status < 600) →
        ¬(r1.text = "" ∨ countNewlines r1.text < 1) →
        (attemptOnce (fun _ k => match k with
          | ReqKind.primary => ReqOutcome.response ⟨406, ""⟩
          | ReqKind.fallback => ReqOutcome.response ⟨200, "h\nd\n"⟩) 0).1 =
            Except.ok r1.text) :=
  C7_fallback_on_406 (fun _ k => match k with
      | ReqKind.primary => ReqOutcome.response ⟨406, ""⟩
      | ReqKind.fallback => ReqOutcome.response ⟨200, "h\nd\n"⟩) 0 ⟨406, ""⟩ rfl rfl
